/-
Verification of the Terraform Cloud data-collection client
(`terraform_api_client.py`) and its offline analyzer (`analyze_data.py`).

The client is embedded shallowly:

* An HTTP exchange is modelled by a script (list) of `HttpResponse`
  values: each outbound GET consumes the head of the script.  An
  exhausted script stands for a transport-level fault.
* `_make_request` / `_paginated_request` become `make_request` /
  `paginated_request`, returning the Python result as an
  `Except Err _`, the unconsumed remainder of the script, and an event
  trace (`Ev`) recording semaphore acquisitions/releases, issued GETs
  (with their URL and query parameters) and rate-limit sleeps.
* Machine integers do not occur; all counts are `Nat`.
-/
import Mathlib

namespace TerraformClient

/-- A query-parameter dictionary (e.g. `{'include': 'plan,apply'}`).
Only carried around and compared, never inspected by the client. -/
abbrev Params := List (String × String)

/-- One fetched record.  The client only ever reads `item['id']` and
`item['attributes']['name']`, so a Resource Item is embedded as those two
fields (synthetic inputs are assumed to carry both keys, as the Python
would raise `KeyError` otherwise). -/
structure Item where
  id : String
  name : String
deriving Repr, DecidableEq

/-- The decoded JSON body of one page, as read by `_paginated_request`:
`data_` models the optional `'data'` key (a list of items) and
`links_next` models `response['links']['next']` — `none` when `'links'`
is absent or has no `'next'` key, `some s` when present (`s = ""` being
the present-but-empty case, which Python treats as falsy). -/
structure PageResponse where
  data_ : Option (List Item)
  links_next : Option String
deriving Repr, DecidableEq

/-- One raw HTTP response: its status code, the optional `Retry-After`
header value (a raw string, parsed only on the 429 path), and the JSON
body (`none` models a body that `response.json()` fails to decode). -/
structure HttpResponse where
  status : Nat
  retryAfter : Option String
  body : Option PageResponse
deriving Repr, DecidableEq

/-- The exceptions `_make_request` can surface to its caller. -/
inductive Err where
  /-- `response.raise_for_status()` raised (status ≥ 400). -/
  | requestFailed (status : Nat)
  /-- `await response.json()` failed on a 200 response. -/
  | malformedResponse
  /-- `int(...)` failed on a present but unparsable `Retry-After` header. -/
  | valueError
  /-- `'data' in response` raised because `_make_request` returned `None`. -/
  | typeError
  /-- Transport-level fault (modelled by an exhausted response script). -/
  | noResponse
deriving Repr, DecidableEq

/-- Events observable while the Executor runs: semaphore permit
acquisition/release, an outbound GET (with URL and query parameters),
and a rate-limit sleep of a given duration in seconds. -/
inductive Ev where
  | acq : Ev
  | rel : Ev
  | sleep : Nat → Ev
  | get : String → Option Params → Ev
deriving Repr, DecidableEq

/-- Python `int(s)` for a nonnegative decimal string: `some n` when `s`
is a nonempty all-digit string, `none` when `int` raises `ValueError`. -/
def pyInt? (s : String) : Option Nat :=
  if s.data ≠ [] ∧ s.data.all Char.isDigit then
    some (s.data.foldl (fun n c => n * 10 + (c.toNat - 48)) 0)
  else none

/-- `int(response.headers.get('Retry-After', 5))`: `none` means the
header is absent (the default `5` is used); a present header is parsed
as a decimal natural, `none` meaning `int` raises `ValueError`. -/
def retryAfterDuration : Option String → Option Nat
  | none => some 5
  | some s => pyInt? s

/-- `TerraformAPIClient._make_request`.  Consumes responses from the
script head-first; returns the Python return value (`Except.ok (some b)`
for a decoded 200 body, `Except.ok none` for Python's implicit `None` on
a non-OK status below 400 where `raise_for_status()` does not raise),
the remaining script, and the event trace.  On a 429 the permit is NOT
released before the sleep: the recursive retry runs inside the
`async with self.semaphore` block, so its `acq` nests within the
original one and both `rel`s happen at the end. -/
def make_request : List HttpResponse → String → Option Params →
    Except Err (Option PageResponse) × List HttpResponse × List Ev
  | [], url, params =>
      (Except.error Err.noResponse, [], [Ev.acq, Ev.get url params, Ev.rel])
  | r :: rest, url, params =>
      if r.status = 200 then
        match r.body with
        | some b => (Except.ok (some b), rest, [Ev.acq, Ev.get url params, Ev.rel])
        | none => (Except.error Err.malformedResponse, rest,
                   [Ev.acq, Ev.get url params, Ev.rel])
      else if r.status = 429 then
        match retryAfterDuration r.retryAfter with
        | some d =>
            let res := make_request rest url params
            (res.1, res.2.1,
             [Ev.acq, Ev.get url params, Ev.sleep d] ++ res.2.2 ++ [Ev.rel])
        | none => (Except.error Err.valueError, rest,
                   [Ev.acq, Ev.get url params, Ev.rel])
      else if 400 ≤ r.status then
        (Except.error (Err.requestFailed r.status), rest,
         [Ev.acq, Ev.get url params, Ev.rel])
      else
        (Except.ok none, rest, [Ev.acq, Ev.get url params, Ev.rel])

/-- Permit count after one event (acquire +1, release −1). -/
def heldStep (n : Nat) : Ev → Nat
  | Ev.acq => n + 1
  | Ev.rel => n - 1
  | _ => n

/-- The permit counts held by this task at the moment of each `sleep`
event of a trace, starting from `n` permits held. -/
def heldAtSleeps (n : Nat) : List Ev → List Nat
  | [] => []
  | Ev.sleep _ :: rest => n :: heldAtSleeps n rest
  | e :: rest => heldAtSleeps (heldStep n e) rest

/-- The maximum permit count held at any instant while a trace runs,
starting from `n` permits held. -/
def maxHeld (n : Nat) : List Ev → Nat
  | [] => n
  | e :: rest => max n (maxHeld (heldStep n e) rest)

/-- The durations of the sleeps of a trace, in order. -/
def sleeps : List Ev → List Nat
  | [] => []
  | Ev.sleep d :: rest => d :: sleeps rest
  | _ :: rest => sleeps rest

/-- The GETs of a trace, in order, as (URL, query parameters) pairs. -/
def requestsOf : List Ev → List (String × Option Params)
  | [] => []
  | Ev.get u p :: rest => (u, p) :: requestsOf rest
  | _ :: rest => requestsOf rest

/-- Python truthiness of the `current_url` string (`None` or `""` end
the `while current_url:` loop). -/
def urlTruthy : Option String → Bool
  | none => false
  | some s => !(s == "")

/-- The `while current_url:` loop of `_paginated_request`.  `fuel`
bounds the number of iterations; it is irrelevant whenever it exceeds
the script length, because every iteration consumes at least one
scripted response.  Accumulates items in `allData` and events in `evs`,
exactly mirroring the Python loop body: extend with `response['data']`
when present, then follow a truthy `response['links']['next']` with the
query parameters cleared, else terminate. -/
def paginated_loop : Nat → List HttpResponse → Option String → Option Params →
    List Item → List Ev → Except Err (List Item) × List HttpResponse × List Ev
  | _, script, none, _, allData, evs => (Except.ok allData, script, evs)
  | fuel, script, some u, params, allData, evs =>
      if u = "" then (Except.ok allData, script, evs)
      else
        match fuel with
        | 0 => (Except.error Err.noResponse, script, evs)
        | fuel + 1 =>
            match make_request script u params with
            | (res, script', evs2) =>
                match res with
                | Except.error e => (Except.error e, script', evs ++ evs2)
                | Except.ok none => (Except.error Err.typeError, script', evs ++ evs2)
                | Except.ok (some body) =>
                    let allData' := match body.data_ with
                      | some items => allData ++ items
                      | none => allData
                    match body.links_next with
                    | some nxt =>
                        if nxt = "" then (Except.ok allData', script', evs ++ evs2)
                        else paginated_loop fuel script' (some nxt) none allData' (evs ++ evs2)
                    | none => (Except.ok allData', script', evs ++ evs2)

/-- `TerraformAPIClient._paginated_request`: run the pagination loop
from the initial URL and parameters with an empty accumulator.  The
fuel `script.length + 1` is always sufficient. -/
def paginated_request (script : List HttpResponse) (url : String)
    (params : Option Params) :
    Except Err (List Item) × List HttpResponse × List Ev :=
  paginated_loop (script.length + 1) script (some url) params [] []

/-! ### Fake multi-page responders

A synthetic paginated collection is a list of `Page`s; `cleanScript`
turns it into the response script an untroubled server would play. -/

/-- One page served by a fake responder: its items and the value of
`links.next` (`none` = key absent, `some ""` = present but empty). -/
structure Page where
  items : List Item
  next : Option String
deriving Repr, DecidableEq

/-- The 200 response serving page `p`. -/
def okPage (p : Page) : HttpResponse :=
  { status := 200, retryAfter := none,
    body := some { data_ := some p.items, links_next := p.next } }

/-- The response script of a fault-free responder serving `pages`. -/
def cleanScript (pages : List Page) : List HttpResponse :=
  pages.map okPage

/-- Python truthiness of a `links.next` value. -/
def nextTruthy : Option String → Bool
  | none => false
  | some s => !(s == "")

/-- A well-formed page chain: at least one page, every page but the
last carries a truthy `next` locator, and the last does not. -/
def chainWF : List Page → Bool
  | [] => false
  | [p] => !(nextTruthy p.next)
  | p :: rest => nextTruthy p.next && chainWF rest

/-- The event trace of a fault-free pagination over `pages` starting at
`url` with `params`: one acquire/GET/release triple per page, each
follow-up GET using the previous page's `next` locator and no
parameters. -/
def cleanTrace : String → Option Params → List Page → List Ev
  | _, _, [] => []
  | url, params, p :: rest =>
      [Ev.acq, Ev.get url params, Ev.rel] ++ cleanTrace (p.next.getD "") none rest

/-- Modelled from the spec: the request sequence §4.2 prescribes for a
`k`-page chain — call 1 uses the initial URL and parameters, call `i+1`
uses page `i`'s `next` locator with the original parameters dropped. -/
def expectedRequests : String → Option Params → List Page → List (String × Option Params)
  | _, _, [] => []
  | url, params, p :: rest =>
      (url, params) :: expectedRequests (p.next.getD "") none rest

/-! ### The Collection Orchestrator (`get_all_data`)

Python `dict`s (insertion-ordered, assignment keeps the position of an
existing key) are embedded as association lists with `dinsert` /
`dlookup`. -/

/-- Python `d[k] = v`: replace in place if `k` is a key, else append. -/
def dinsert {α : Type} (k : String) (v : α) :
    List (String × α) → List (String × α)
  | [] => [(k, v)]
  | (k', v') :: rest =>
      if k' = k then (k, v) :: rest else (k', v') :: dinsert k v rest

/-- Python `d.get(k)` / `k in d`. -/
def dlookup {α : Type} (k : String) : List (String × α) → Option α
  | [] => none
  | (k', v') :: rest => if k' = k then some v' else dlookup k rest

/-- The `{'workspace_id': ..., 'runs': [...]}` value stored per
workspace in the snapshot's `runs` mapping. -/
structure RunsEntry where
  workspace_id : String
  runs : List Item
deriving Repr, DecidableEq

/-- The snapshot's `summary` record. -/
structure Summary where
  total_organizations : Nat
  total_workspaces : Nat
  total_runs : Nat
deriving Repr, DecidableEq

/-- The Collection Snapshot assembled by `get_all_data`. -/
structure Snapshot where
  organizations : List Item
  workspaces : List (String × List Item)
  runs : List (String × List (String × RunsEntry))
  summary : Summary
deriving Repr, DecidableEq

/-- A synthetic environment feeding `get_all_data`: the organization
list and, per organization name / workspace id, the item lists its
workspace and run fetches return. -/
structure Env where
  orgs : List Item
  workspacesOf : String → List Item
  runsOf : String → List Item

/-- The fetches `get_all_data` issues, in order. -/
inductive FetchCall where
  | orgs : FetchCall
  | workspaces : String → FetchCall
  | runs : String → FetchCall
deriving Repr, DecidableEq

/-- `TerraformAPIClient.get_all_data` over a synthetic environment.
Despite the "concurrent" comments, the Python awaits its coroutines
strictly in creation order, so the embedding is a straight-line
program.  Returns the snapshot and the list of fetches issued. -/
def get_all_data (env : Env) : Snapshot × List FetchCall :=
  let organizations := env.orgs
  let workspace_tasks := organizations.map fun org =>
    (org.name, env.workspacesOf org.name)
  let org_workspaces : List (String × List Item) :=
    workspace_tasks.foldl (fun d t => dinsert t.1 t.2 d) []
  let run_tasks : List (String × String × String × List Item) :=
    org_workspaces.flatMap fun ow =>
      ow.2.map fun ws => (ow.1, ws.name, ws.id, env.runsOf ws.id)
  let workspace_runs : List (String × List (String × RunsEntry)) :=
    run_tasks.foldl (fun d t =>
      let inner := (dlookup t.1 d).getD []
      dinsert t.1 (dinsert t.2.1 ⟨t.2.2.1, t.2.2.2⟩ inner) d) []
  let summary : Summary :=
    { total_organizations := organizations.length
      total_workspaces := (org_workspaces.map fun ow => ow.2.length).sum
      total_runs :=
        (workspace_runs.map fun orr =>
          (orr.2.map fun wd => wd.2.runs.length).sum).sum }
  ({ organizations := organizations
     workspaces := org_workspaces
     runs := workspace_runs
     summary := summary },
   FetchCall.orgs :: (organizations.map fun org => FetchCall.workspaces org.name)
     ++ run_tasks.map fun t => FetchCall.runs t.2.2.1)

/-- The entries of a runs mapping `d` are covered by the workspaces
mapping `ows`: every organization key of `d` is a key of `ows`, and
each inner workspace-name key corresponds to a workspace in that
organization's list whose `name` is the key and whose `id` is the
stored `workspace_id`. -/
def runsEntriesOk (ows : List (String × List Item))
    (d : List (String × List (String × RunsEntry))) : Prop :=
  ∀ p ∈ d, ∃ wss, dlookup p.1 ows = some wss ∧
    ∀ q ∈ p.2, ∃ ws ∈ wss, ws.name = q.1 ∧ ws.id = q.2.workspace_id

/-- The §3 snapshot invariant: every workspace referenced in the runs
mapping also appears in the workspaces mapping for the same
organization. -/
def runsInvariant (s : Snapshot) : Prop :=
  runsEntriesOk s.workspaces s.runs

/-! ### The offline analyzer (`analyze_data.py`)

The analyzer is an external collaborator specified only at its
interface boundary (§1 of the spec), so each report function's printed
block is abstracted to one output token; the claim under check concerns
only the exit code and the *absence* of report output on the error
paths of `load_data`. -/

/-- The state of the input file as `load_data` finds it. -/
inductive FileState where
  /-- `open` raises `FileNotFoundError`. -/
  | missing : FileState
  /-- `json.load` raises `JSONDecodeError`. -/
  | invalidJson : FileState
  /-- The file holds a valid JSON document. -/
  | valid : FileState
deriving Repr, DecidableEq

/-- One block of analyzer output. -/
inductive OutLine where
  | errFileNotFound : String → OutLine
  | errInvalidJson : String → OutLine
  | summaryReport : OutLine
  | orgAnalysis : OutLine
  | wsAnalysis : OutLine
  | runAnalysis : OutLine
  | hint : OutLine
deriving Repr, DecidableEq

/-- The analyzer's report-selection flags. -/
structure AnalyzerFlags where
  organizations : Bool
  workspaces : Bool
  runs : Bool
  all : Bool
deriving Repr, DecidableEq

/-- `analyze_data.load_data`: on a missing file or invalid JSON it
prints one error line and calls `sys.exit(1)` (the `Except.error` side,
carrying the printed output and exit code); otherwise it returns the
parsed data (abstracted to `Unit`). -/
def load_data (path : String) : FileState → Except (List OutLine × Nat) Unit
  | FileState.missing => Except.error ([OutLine.errFileNotFound path], 1)
  | FileState.invalidJson => Except.error ([OutLine.errInvalidJson path], 1)
  | FileState.valid => Except.ok ()

/-- `analyze_data.main` after argument parsing: load the input, always
print the summary report, then the flag-selected analyses, then the
usage hint when no flag is set.  Returns (exit code, output). -/
def analyze_main (path : String) (fs : FileState) (flags : AnalyzerFlags) :
    Nat × List OutLine :=
  match load_data path fs with
  | Except.error (out, code) => (code, out)
  | Except.ok _ =>
      (0, [OutLine.summaryReport]
        ++ (if flags.all || flags.organizations then [OutLine.orgAnalysis] else [])
        ++ (if flags.all || flags.workspaces then [OutLine.wsAnalysis] else [])
        ++ (if flags.all || flags.runs then [OutLine.runAnalysis] else [])
        ++ (if !(flags.organizations || flags.workspaces || flags.runs || flags.all)
            then [OutLine.hint] else []))

/-! ## Claims about the Executor (`_make_request`) -/

/-- C1 (counterexample): at the concrete script "one 429 with no
`Retry-After` header, then a 200", the Executor's trace does NOT
satisfy the claim: it is false that every sleep happens with zero
permits held and that at most one permit is ever held — the retry's
semaphore acquisition nests inside the original one. -/
theorem C1_counterexample :
    ¬ ((∀ x ∈ heldAtSleeps 0 ((make_request
          [⟨429, none, none⟩, ⟨200, none, some ⟨some [], none⟩⟩] "u" none).2.2), x = 0) ∧
       maxHeld 0 ((make_request
          [⟨429, none, none⟩, ⟨200, none, some ⟨some [], none⟩⟩] "u" none).2.2) ≤ 1) := by
  decide

/-- C1 (amended): on a rate-limited response whose retry-after duration
parses as `d`, followed by a successful retry, the Executor keeps
holding its permit during the retry-after sleep (one permit held at the
sleep) and the retry acquires a second permit nested inside the first
(two permits held at the peak); both are released only after the
retry's terminal outcome. -/
theorem C1_amended (hdr : Option String) (b : Option PageResponse)
    (page : PageResponse) (rest : List HttpResponse) (url : String)
    (params : Option Params) (d : Nat) (h : retryAfterDuration hdr = some d) :
    (make_request (⟨429, hdr, b⟩ :: ⟨200, none, some page⟩ :: rest) url params).2.2 =
      [Ev.acq, Ev.get url params, Ev.sleep d,
       Ev.acq, Ev.get url params, Ev.rel, Ev.rel] ∧
    heldAtSleeps 0 ((make_request
        (⟨429, hdr, b⟩ :: ⟨200, none, some page⟩ :: rest) url params).2.2) = [1] ∧
    maxHeld 0 ((make_request
        (⟨429, hdr, b⟩ :: ⟨200, none, some page⟩ :: rest) url params).2.2) = 2 := by
  have htr : (make_request (⟨429, hdr, b⟩ :: ⟨200, none, some page⟩ :: rest)
      url params).2.2 =
      [Ev.acq, Ev.get url params, Ev.sleep d,
       Ev.acq, Ev.get url params, Ev.rel, Ev.rel] := by
    simp [make_request, h]
  refine ⟨htr, ?_, ?_⟩ <;> rw [htr] <;> simp [heldAtSleeps, heldStep, maxHeld]

/-- C1 (witness for the amended theorem) at the header-absent input. -/
theorem C1_amended_witness :
    heldAtSleeps 0 ((make_request
        [⟨429, none, none⟩, ⟨200, none, some ⟨some [], none⟩⟩] "u" none).2.2) = [1] ∧
    maxHeld 0 ((make_request
        [⟨429, none, none⟩, ⟨200, none, some ⟨some [], none⟩⟩] "u" none).2.2) = 2 :=
  ⟨(C1_amended none none ⟨some [], none⟩ [] "u" none 5 rfl).2.1,
   (C1_amended none none ⟨some [], none⟩ [] "u" none 5 rfl).2.2⟩

/-- C2 (counterexample): for status 204 (non-OK, not rate-limit, but
below 400) `raise_for_status()` does not raise and `_make_request`
returns Python `None` — a non-error value — contradicting the claim
that every such status surfaces a `RequestFailed`-style error. -/
theorem C2_counterexample :
    (make_request [⟨204, none, none⟩] "u" none).1 = Except.ok none ∧
    ¬ ∃ e, (make_request [⟨204, none, none⟩] "u" none).1 = Except.error e := by
  refine ⟨rfl, ?_⟩
  rintro ⟨e, he⟩
  rw [show (make_request [⟨204, none, none⟩] "u" none).1 = Except.ok none from rfl] at he
  exact Except.noConfusion he

/-- C2 (amended): for a response whose status is neither 200 nor 429,
`_make_request` performs no retry and consumes exactly that response;
when the status is at least 400 it surfaces the `RequestFailed`-style
error carrying the status, but when the status is below 400
`raise_for_status()` does not raise and the function returns `None`
(a non-error value). -/
theorem C2_amended (r : HttpResponse) (rest : List HttpResponse) (url : String)
    (params : Option Params) (h200 : r.status ≠ 200) (h429 : r.status ≠ 429) :
    (400 ≤ r.status →
      make_request (r :: rest) url params =
        (Except.error (Err.requestFailed r.status), rest,
         [Ev.acq, Ev.get url params, Ev.rel])) ∧
    (r.status < 400 →
      make_request (r :: rest) url params =
        (Except.ok none, rest, [Ev.acq, Ev.get url params, Ev.rel])) := by
  constructor <;> intro h
  · simp [make_request, h200, h429, h]
  · simp [make_request, h200, h429, Nat.not_le.mpr h]

/-- C2 (witness for the amended theorem) at statuses 500 and 204. -/
theorem C2_amended_witness :
    make_request [⟨500, none, none⟩] "u" none =
      (Except.error (Err.requestFailed 500), [], [Ev.acq, Ev.get "u" none, Ev.rel]) ∧
    make_request [⟨204, none, none⟩] "u" none =
      (Except.ok none, [], [Ev.acq, Ev.get "u" none, Ev.rel]) :=
  ⟨(C2_amended ⟨500, none, none⟩ [] "u" none (by decide) (by decide)).1 (by decide),
   (C2_amended ⟨204, none, none⟩ [] "u" none (by decide) (by decide)).2 (by decide)⟩

/-- C5 (counterexample): with a present but unparsable `Retry-After`
header (`"soon"`), the Executor does not sleep 5 and retry — `int()`
raises `ValueError`, which is re-raised as a fatal error with no sleep
at all. -/
theorem C5_counterexample :
    (make_request [⟨429, some "soon", none⟩,
        ⟨200, none, some ⟨some [], none⟩⟩] "u" none).1 = Except.error Err.valueError ∧
    sleeps (make_request [⟨429, some "soon", none⟩,
        ⟨200, none, some ⟨some [], none⟩⟩] "u" none).2.2 = [] :=
  ⟨rfl, rfl⟩

/-- C5 (amended): on a rate-limited response the Executor sleeps for
the duration advertised in the `Retry-After` header when it is present
and parsable, and for the fixed fallback of 5 when the header is
absent; when the header is present but unparsable, `int()` raises and
the request fails fatally with no sleep. -/
theorem C5_amended (sg sb : String) (n : Nat) (b1 b2 : Option PageResponse)
    (page : PageResponse) (rest : List HttpResponse) (url : String)
    (params : Option Params) (hg : pyInt? sg = some n) (hb : pyInt? sb = none) :
    sleeps (make_request (⟨429, some sg, b1⟩ :: ⟨200, none, some page⟩ :: rest)
        url params).2.2 = [n] ∧
    sleeps (make_request (⟨429, none, b1⟩ :: ⟨200, none, some page⟩ :: rest)
        url params).2.2 = [5] ∧
    make_request (⟨429, some sb, b2⟩ :: rest) url params =
      (Except.error Err.valueError, rest, [Ev.acq, Ev.get url params, Ev.rel]) := by
  refine ⟨?_, ?_, ?_⟩ <;>
    simp [make_request, retryAfterDuration, hg, hb, sleeps]

/-- C5 (witness for the amended theorem) with headers `"7"`, absent,
and `"soon"`. -/
theorem C5_amended_witness :
    sleeps (make_request [⟨429, some "7", none⟩,
        ⟨200, none, some ⟨some [], none⟩⟩] "u" none).2.2 = [7] ∧
    sleeps (make_request [⟨429, none, none⟩,
        ⟨200, none, some ⟨some [], none⟩⟩] "u" none).2.2 = [5] ∧
    make_request [⟨429, some "soon", none⟩] "u" none =
      (Except.error Err.valueError, [], [Ev.acq, Ev.get "u" none, Ev.rel]) :=
  C5_amended "7" "soon" 7 none none ⟨some [], none⟩ [] "u" none (by decide) (by decide)

/-! ## Pager lemmas -/

/-- A 200 response serving page `p` is decoded and returned, consuming
one scripted response, with the standard acquire/GET/release trace. -/
theorem make_request_ok (p : Page) (rest : List HttpResponse) (url : String)
    (params : Option Params) :
    make_request (okPage p :: rest) url params =
      (Except.ok (some ⟨some p.items, p.next⟩), rest,
       [Ev.acq, Ev.get url params, Ev.rel]) := by
  simp [make_request, okPage]

/-- A 429 response with a usable retry-after duration is transparent to
the caller: the result and remaining script are those of the retry; only
the trace grows by the nested acquire, the sleep and the outer release. -/
theorem make_request_429 (r : HttpResponse) (rest : List HttpResponse)
    (url : String) (params : Option Params) (d : Nat) (h429 : r.status = 429)
    (hd : retryAfterDuration r.retryAfter = some d) :
    make_request (r :: rest) url params =
      ((make_request rest url params).1, (make_request rest url params).2.1,
       [Ev.acq, Ev.get url params, Ev.sleep d] ++
         (make_request rest url params).2.2 ++ [Ev.rel]) := by
  simp [make_request, h429, hd]

/-- Master lemma for fault-free pagination: over a well-formed page
chain the loop consumes the whole script, appends every page's items in
order to the accumulator, and extends the trace by `cleanTrace`. -/
theorem paginated_loop_clean :
    ∀ (pages : List Page) (fuel : Nat) (url : String) (params : Option Params)
      (acc : List Item) (evs : List Ev),
      pages.length < fuel → chainWF pages = true → url ≠ "" →
      paginated_loop fuel (cleanScript pages) (some url) params acc evs =
        (Except.ok (acc ++ (pages.map Page.items).flatten), [],
         evs ++ cleanTrace url params pages) := by
  intro pages
  induction pages with
  | nil => intro fuel url params acc evs hf hwf hu; simp [chainWF] at hwf
  | cons p rest ih =>
      intro fuel url params acc evs hf hwf hu
      cases fuel with
      | zero => exact absurd hf (Nat.not_lt_zero _)
      | succ f =>
          rw [show cleanScript (p :: rest) = okPage p :: cleanScript rest from rfl]
          rw [paginated_loop, if_neg hu, make_request_ok]
          cases rest with
          | nil =>
              have hnt : nextTruthy p.next = false := by
                simpa [chainWF] using hwf
              cases hpn : p.next with
              | none => simp [cleanTrace, cleanScript, hpn]
              | some s =>
                  have hs : s = "" := by
                    simpa [nextTruthy, hpn] using hnt
                  simp [cleanTrace, cleanScript, hpn, hs]
          | cons q rest' =>
              have hwf' : nextTruthy p.next = true ∧ chainWF (q :: rest') = true := by
                simpa [chainWF] using hwf
              cases hpn : p.next with
              | none => rw [hpn] at hwf'; simp [nextTruthy] at hwf'
              | some s =>
                  have hs : s ≠ "" := by
                    have := hwf'.1
                    rw [hpn] at this
                    simpa [nextTruthy] using this
                  have hlen : (q :: rest').length < f := by
                    simpa using Nat.lt_of_succ_lt_succ hf
                  simp only [hpn]
                  rw [if_neg hs]
                  rw [ih f s none (acc ++ p.items) (evs ++ [Ev.acq, Ev.get url params, Ev.rel])
                      hlen hwf'.2 hs]
                  simp [cleanTrace, hpn, List.append_assoc]

/-- The GETs of a fault-free pagination trace are exactly the requests
§4.2 prescribes. -/
theorem requestsOf_cleanTrace :
    ∀ (pages : List Page) (url : String) (params : Option Params),
      requestsOf (cleanTrace url params pages) = expectedRequests url params pages := by
  intro pages
  induction pages with
  | nil => intro url params; rfl
  | cons p rest ih =>
      intro url params
      simp [cleanTrace, expectedRequests, requestsOf, ih]

/-- The prescribed request list for a `k`-page chain has length `k`. -/
theorem expectedRequests_length :
    ∀ (pages : List Page) (url : String) (params : Option Params),
      (expectedRequests url params pages).length = pages.length := by
  intro pages
  induction pages with
  | nil => intro url params; rfl
  | cons p rest ih => intro url params; simp [expectedRequests, ih]

/-- Master lemma for a single rate-limit: if the response to the
`(j+1)`-st page request is a 429 (with usable retry-after) and the
retry succeeds, the loop still returns all pages' items in order. -/
theorem paginated_loop_rl (rl : HttpResponse) (d : Nat) (h429 : rl.status = 429)
    (hd : retryAfterDuration rl.retryAfter = some d) :
    ∀ (j : Nat) (pages : List Page) (fuel : Nat) (url : String)
      (params : Option Params) (acc : List Item) (evs : List Ev),
      j < pages.length → chainWF pages = true → url ≠ "" →
      pages.length + 1 < fuel →
      (paginated_loop fuel
          (cleanScript (pages.take j) ++ rl :: cleanScript (pages.drop j))
          (some url) params acc evs).1 =
        Except.ok (acc ++ (pages.map Page.items).flatten) := by
  intro j
  induction j with
  | zero =>
      intro pages fuel url params acc evs hj hwf hu hf
      cases pages with
      | nil => exact absurd hj (Nat.not_lt_zero _)
      | cons p rest =>
          cases fuel with
          | zero => exact absurd hf (Nat.not_lt_zero _)
          | succ f =>
              rw [show (p :: rest).take 0 = [] from rfl,
                  show (p :: rest).drop 0 = p :: rest from rfl]
              rw [show cleanScript [] ++ rl :: cleanScript (p :: rest) =
                    rl :: okPage p :: cleanScript rest from rfl]
              rw [paginated_loop, if_neg hu, make_request_429 rl _ url params d h429 hd,
                  make_request_ok]
              cases rest with
              | nil =>
                  have hnt : nextTruthy p.next = false := by
                    simpa [chainWF] using hwf
                  cases hpn : p.next with
                  | none => simp [hpn]
                  | some s =>
                      have hs : s = "" := by
                        simpa [nextTruthy, hpn] using hnt
                      simp [hpn, hs]
              | cons q rest' =>
                  have hwf' : nextTruthy p.next = true ∧ chainWF (q :: rest') = true := by
                    simpa [chainWF] using hwf
                  cases hpn : p.next with
                  | none => rw [hpn] at hwf'; simp [nextTruthy] at hwf'
                  | some s =>
                      have hs : s ≠ "" := by
                        have := hwf'.1
                        rw [hpn] at this
                        simpa [nextTruthy] using this
                      have hlen : (q :: rest').length < f := by
                        simp only [List.length_cons] at hf ⊢
                        omega
                      simp only [hpn]
                      rw [if_neg hs]
                      rw [paginated_loop_clean (q :: rest') f s none (acc ++ p.items)
                          (evs ++ ([Ev.acq, Ev.get url params, Ev.sleep d] ++
                            [Ev.acq, Ev.get url params, Ev.rel] ++ [Ev.rel]))
                          hlen hwf'.2 hs]
                      simp [List.append_assoc]
  | succ j ih =>
      intro pages fuel url params acc evs hj hwf hu hf
      cases pages with
      | nil => exact absurd hj (Nat.not_lt_zero _)
      | cons p rest =>
          cases fuel with
          | zero => exact absurd hf (Nat.not_lt_zero _)
          | succ f =>
              have hrest : rest ≠ [] := by
                intro h
                rw [h] at hj
                exact absurd hj (by simp)
              rw [List.take_succ_cons, List.drop_succ_cons]
              rw [show cleanScript (p :: rest.take j) ++ rl :: cleanScript (rest.drop j) =
                    okPage p :: (cleanScript (rest.take j) ++ rl :: cleanScript (rest.drop j))
                  from rfl]
              rw [paginated_loop, if_neg hu, make_request_ok]
              cases rest with
              | nil => exact absurd rfl hrest
              | cons q rest' =>
                  have hwf' : nextTruthy p.next = true ∧ chainWF (q :: rest') = true := by
                    simpa [chainWF] using hwf
                  cases hpn : p.next with
                  | none => rw [hpn] at hwf'; simp [nextTruthy] at hwf'
                  | some s =>
                      have hs : s ≠ "" := by
                        have := hwf'.1
                        rw [hpn] at this
                        simpa [nextTruthy] using this
                      have hj' : j < (q :: rest').length := by
                        simpa using Nat.lt_of_succ_lt_succ hj
                      have hf' : (q :: rest').length + 1 < f := by
                        simp only [List.length_cons] at hf ⊢
                        omega
                      simp only [hpn]
                      rw [if_neg hs]
                      rw [ih (q :: rest') f s none (acc ++ p.items)
                          (evs ++ [Ev.acq, Ev.get url params, Ev.rel]) hj' hwf'.2 hs hf']
                      simp [List.append_assoc]

/-! ## Claims about the Pager (`_paginated_request`) -/

/-- C6: over every well-formed finite multi-page responder, the item
sequence `_paginated_request` returns is the concatenation of the
pages' item lists in page order (first-seen order, no deduplication),
and its length is the sum of the per-page item counts. -/
theorem C6_pagination_concat (pages : List Page) (url : String)
    (params : Option Params) (hwf : chainWF pages = true) (hu : url ≠ "") :
    (paginated_request (cleanScript pages) url params).1 =
      Except.ok ((pages.map Page.items).flatten) ∧
    ((pages.map Page.items).flatten).length =
      (pages.map fun p => p.items.length).sum := by
  constructor
  · rw [paginated_request,
        paginated_loop_clean pages _ url params [] [] (by simp [cleanScript]) hwf hu]
    simp
  · simp only [List.length_flatten, List.map_map]
    rfl

/-- C6 (witness) on a concrete two-page responder. -/
theorem C6_pagination_concat_witness :
    (paginated_request (cleanScript [⟨[⟨"a", "A"⟩], some "p2"⟩, ⟨[⟨"b", "B"⟩], none⟩])
        "u" none).1 = Except.ok [⟨"a", "A"⟩, ⟨"b", "B"⟩] ∧
    ([[⟨"a", "A"⟩], [(⟨"b", "B"⟩ : Item)]].flatten).length = 2 := by
  have h := C6_pagination_concat [⟨[⟨"a", "A"⟩], some "p2"⟩, ⟨[⟨"b", "B"⟩], none⟩]
    "u" none (by decide) (by decide)
  exact ⟨h.1, rfl⟩

/-- C7: on a well-formed `k`-page chain the Pager terminates after
exactly `k` Executor calls — call 1 uses the initial URL and query
parameters, call `i+1` uses page `i`'s next locator with the original
parameters dropped. -/
theorem C7_pagination_calls (pages : List Page) (url : String)
    (params : Option Params) (k : Nat) (hwf : chainWF pages = true)
    (hu : url ≠ "") (hk : pages.length = k) :
    requestsOf (paginated_request (cleanScript pages) url params).2.2 =
      expectedRequests url params pages ∧
    (requestsOf (paginated_request (cleanScript pages) url params).2.2).length = k := by
  rw [paginated_request,
      paginated_loop_clean pages _ url params [] [] (by simp [cleanScript]) hwf hu]
  simp [requestsOf_cleanTrace, expectedRequests_length, hk]

/-- C7 (witness) on a concrete two-page responder. -/
theorem C7_pagination_calls_witness :
    requestsOf (paginated_request
        (cleanScript [⟨[⟨"a", "A"⟩], some "p2"⟩, ⟨[⟨"b", "B"⟩], none⟩])
        "u" (some [("include", "x")])).2.2 =
      expectedRequests "u" (some [("include", "x")])
        [⟨[⟨"a", "A"⟩], some "p2"⟩, ⟨[⟨"b", "B"⟩], none⟩] ∧
    (requestsOf (paginated_request
        (cleanScript [⟨[⟨"a", "A"⟩], some "p2"⟩, ⟨[⟨"b", "B"⟩], none⟩])
        "u" (some [("include", "x")])).2.2).length = 2 :=
  C7_pagination_calls [⟨[⟨"a", "A"⟩], some "p2"⟩, ⟨[⟨"b", "B"⟩], none⟩]
    "u" (some [("include", "x")]) 2 (by decide) (by decide) rfl

/-- C4: when exactly one page request is answered by a rate-limit
response (with usable retry-after) and its retry succeeds, the final
item sequence equals the one the fault-free responder yields, and the
rate-limit is never surfaced: the result is a success carrying exactly
the concatenated page items. -/
theorem C4_rate_limit_refinement (pages : List Page) (j : Nat)
    (rl : HttpResponse) (url : String) (params : Option Params) (d : Nat)
    (hwf : chainWF pages = true) (hu : url ≠ "") (hj : j < pages.length)
    (h429 : rl.status = 429) (hd : retryAfterDuration rl.retryAfter = some d) :
    (paginated_request (cleanScript (pages.take j) ++ rl :: cleanScript (pages.drop j))
        url params).1 =
      (paginated_request (cleanScript pages) url params).1 ∧
    (paginated_request (cleanScript (pages.take j) ++ rl :: cleanScript (pages.drop j))
        url params).1 =
      Except.ok ((pages.map Page.items).flatten) := by
  have hclean : (paginated_request (cleanScript pages) url params).1 =
      Except.ok ((pages.map Page.items).flatten) := by
    rw [paginated_request,
        paginated_loop_clean pages _ url params [] [] (by simp [cleanScript]) hwf hu]
    simp
  have hfuel : pages.length + 1 <
      (cleanScript (pages.take j) ++ rl :: cleanScript (pages.drop j)).length + 1 := by
    simp [cleanScript]
    omega
  have hrl : (paginated_request
      (cleanScript (pages.take j) ++ rl :: cleanScript (pages.drop j)) url params).1 =
      Except.ok ((pages.map Page.items).flatten) := by
    rw [paginated_request]
    have := paginated_loop_rl rl d h429 hd j pages _ url params [] [] hj hwf hu hfuel
    simpa using this
  exact ⟨hrl.trans hclean.symm, hrl⟩

/-- C4 (witness): a two-page responder with the second page's response
rate-limited once. -/
theorem C4_rate_limit_refinement_witness :
    (paginated_request
        (cleanScript ([⟨[⟨"a", "A"⟩], some "p2"⟩, ⟨[⟨"b", "B"⟩], none⟩].take 1) ++
          ⟨429, some "3", none⟩ ::
          cleanScript ([⟨[⟨"a", "A"⟩], some "p2"⟩, ⟨[⟨"b", "B"⟩], none⟩].drop 1))
        "u" none).1 =
      (paginated_request
        (cleanScript [⟨[⟨"a", "A"⟩], some "p2"⟩, ⟨[⟨"b", "B"⟩], none⟩]) "u" none).1 ∧
    (paginated_request
        (cleanScript ([⟨[⟨"a", "A"⟩], some "p2"⟩, ⟨[⟨"b", "B"⟩], none⟩].take 1) ++
          ⟨429, some "3", none⟩ ::
          cleanScript ([⟨[⟨"a", "A"⟩], some "p2"⟩, ⟨[⟨"b", "B"⟩], none⟩].drop 1))
        "u" none).1 =
      Except.ok [⟨"a", "A"⟩, ⟨"b", "B"⟩] :=
  C4_rate_limit_refinement [⟨[⟨"a", "A"⟩], some "p2"⟩, ⟨[⟨"b", "B"⟩], none⟩] 1
    ⟨429, some "3", none⟩ "u" none 3 (by decide) (by decide) (by decide) rfl (by decide)

/-! ## Claims about the Orchestrator (`get_all_data`) -/

/-- C3: in every snapshot the summary counts equal the cardinalities of
the assembled collections — `total_organizations` is the length of the
organizations list, `total_workspaces` the sum of the per-organization
workspace-list lengths, `total_runs` the sum of the per-workspace
run-list lengths — and with zero organizations all three counts are
zero and only the organizations fetch is issued. -/
theorem C3_summary_counts (env : Env) :
    ((get_all_data env).1.summary.total_organizations =
        (get_all_data env).1.organizations.length ∧
     (get_all_data env).1.summary.total_workspaces =
        ((get_all_data env).1.workspaces.map fun ow => ow.2.length).sum ∧
     (get_all_data env).1.summary.total_runs =
        ((get_all_data env).1.runs.map fun orr =>
          (orr.2.map fun wd => wd.2.runs.length).sum).sum) ∧
    (env.orgs = [] →
      (get_all_data env).1.summary = ⟨0, 0, 0⟩ ∧
      (get_all_data env).2 = [FetchCall.orgs]) := by
  refine ⟨⟨rfl, rfl, rfl⟩, fun h => ?_⟩
  obtain ⟨o, w, r⟩ := env
  obtain rfl : o = [] := h
  exact ⟨rfl, rfl⟩

/-- C3 (witness) at the empty environment. -/
theorem C3_summary_counts_witness :
    (get_all_data ⟨[], fun _ => [], fun _ => []⟩).1.summary = ⟨0, 0, 0⟩ ∧
    (get_all_data ⟨[], fun _ => [], fun _ => []⟩).2 = [FetchCall.orgs] :=
  (C3_summary_counts ⟨[], fun _ => [], fun _ => []⟩).2 rfl

/-- C10: when one organization's workspaces stage yields two workspaces
with the same name `"w"` but distinct ids, the snapshot's runs mapping
keeps only the last-processed duplicate's `{workspace_id, runs}` entry,
`total_runs` counts only that retained entry's runs, and
`total_workspaces` still counts both duplicates. -/
theorem C10_duplicate_workspace_names (oid id1 id2 : String)
    (r1 r2 : List Item) (h : id1 ≠ id2) :
    (get_all_data ⟨[⟨oid, "org1"⟩],
        fun _ => [⟨id1, "w"⟩, ⟨id2, "w"⟩],
        fun i => if i = id1 then r1 else if i = id2 then r2 else []⟩).1.runs =
      [("org1", [("w", ⟨id2, r2⟩)])] ∧
    (get_all_data ⟨[⟨oid, "org1"⟩],
        fun _ => [⟨id1, "w"⟩, ⟨id2, "w"⟩],
        fun i => if i = id1 then r1 else if i = id2 then r2 else []⟩).1.summary.total_runs
      = r2.length ∧
    (get_all_data ⟨[⟨oid, "org1"⟩],
        fun _ => [⟨id1, "w"⟩, ⟨id2, "w"⟩],
        fun i => if i = id1 then r1 else if i = id2 then r2 else []⟩).1.summary.total_workspaces
      = 2 := by
  refine ⟨?_, ?_, ?_⟩ <;>
    simp [get_all_data, dinsert, dlookup, h, Ne.symm h]

/-- C10 (witness) at concrete ids and run lists. -/
theorem C10_duplicate_workspace_names_witness :
    (get_all_data ⟨[⟨"o", "org1"⟩],
        fun _ => [⟨"i1", "w"⟩, ⟨"i2", "w"⟩],
        fun i => if i = "i1" then [⟨"r1", "R"⟩] else
          if i = "i2" then [] else []⟩).1.runs =
      [("org1", [("w", ⟨"i2", []⟩)])] ∧
    (get_all_data ⟨[⟨"o", "org1"⟩],
        fun _ => [⟨"i1", "w"⟩, ⟨"i2", "w"⟩],
        fun i => if i = "i1" then [⟨"r1", "R"⟩] else
          if i = "i2" then [] else []⟩).1.summary.total_runs = 0 ∧
    (get_all_data ⟨[⟨"o", "org1"⟩],
        fun _ => [⟨"i1", "w"⟩, ⟨"i2", "w"⟩],
        fun i => if i = "i1" then [⟨"r1", "R"⟩] else
          if i = "i2" then [] else []⟩).1.summary.total_workspaces = 2 :=
  C10_duplicate_workspace_names "o" "i1" "i2" [⟨"r1", "R"⟩] [] (by decide)

/-! ## Dictionary lemmas and the snapshot invariant (C8) -/

/-- Membership after a Python-style assignment: an entry of
`dinsert k v d` is the new `(k, v)` entry or an entry of `d`. -/
theorem mem_dinsert {α : Type} {k : String} {v : α} :
    ∀ {d : List (String × α)} {p : String × α},
      p ∈ dinsert k v d → p = (k, v) ∨ p ∈ d := by
  intro d
  induction d with
  | nil =>
      intro p hp
      simp [dinsert] at hp
      exact Or.inl hp
  | cons hd tl ih =>
      intro p hp
      obtain ⟨k', v'⟩ := hd
      by_cases h : k' = k
      · simp only [dinsert, if_pos h, List.mem_cons] at hp
        rcases hp with h1 | h1
        · exact Or.inl h1
        · exact Or.inr (List.mem_cons_of_mem _ h1)
      · simp only [dinsert, if_neg h, List.mem_cons] at hp
        rcases hp with h1 | h1
        · exact Or.inr (h1 ▸ List.mem_cons_self _ _)
        · rcases ih h1 with h2 | h2
          · exact Or.inl h2
          · exact Or.inr (List.mem_cons_of_mem _ h2)

/-- A successful lookup returns an entry of the dictionary. -/
theorem dlookup_mem {α : Type} {k : String} {v : α} :
    ∀ {d : List (String × α)}, dlookup k d = some v → (k, v) ∈ d := by
  intro d
  induction d with
  | nil => intro h; simp [dlookup] at h
  | cons hd tl ih =>
      intro h
      obtain ⟨k', v'⟩ := hd
      by_cases hk : k' = k
      · rw [dlookup, if_pos hk] at h
        obtain rfl : v' = v := Option.some.inj h
        exact hk ▸ List.mem_cons_self _ _
      · rw [dlookup, if_neg hk] at h
        exact List.mem_cons_of_mem _ (ih h)

/-- A key of `dinsert k v d` is `k` or a key of `d`. -/
theorem mem_keys_dinsert {α : Type} {x k : String} {v : α} :
    ∀ {d : List (String × α)},
      x ∈ (dinsert k v d).map Prod.fst → x = k ∨ x ∈ d.map Prod.fst := by
  intro d
  induction d with
  | nil =>
      intro hx
      simp [dinsert] at hx
      exact Or.inl hx
  | cons hd tl ih =>
      intro hx
      obtain ⟨k', v'⟩ := hd
      by_cases h : k' = k
      · simp only [dinsert, if_pos h, List.map_cons, List.mem_cons] at hx
        rcases hx with h1 | h1
        · exact Or.inl h1
        · exact Or.inr (List.mem_cons_of_mem _ h1)
      · simp only [dinsert, if_neg h, List.map_cons, List.mem_cons] at hx
        rcases hx with h1 | h1
        · exact Or.inr (h1 ▸ List.mem_cons_self _ _)
        · rcases ih h1 with h2 | h2
          · exact Or.inl h2
          · exact Or.inr (List.mem_cons_of_mem _ h2)

/-- Python-style assignment preserves distinctness of keys. -/
theorem nodup_keys_dinsert {α : Type} {k : String} {v : α} :
    ∀ {d : List (String × α)},
      (d.map Prod.fst).Nodup → ((dinsert k v d).map Prod.fst).Nodup := by
  intro d
  induction d with
  | nil => intro _; simp [dinsert]
  | cons hd tl ih =>
      intro h
      obtain ⟨k', v'⟩ := hd
      simp only [List.map_cons, List.nodup_cons] at h
      by_cases hk : k' = k
      · subst hk
        rw [dinsert, if_pos rfl]
        simp only [List.map_cons, List.nodup_cons]
        exact h
      · rw [dinsert, if_neg hk]
        simp only [List.map_cons, List.nodup_cons]
        refine ⟨fun hx => ?_, ih h.2⟩
        rcases mem_keys_dinsert hx with h1 | h1
        · exact hk h1
        · exact h.1 h1

/-- Building a dictionary by repeated assignment from a key-distinct
start yields distinct keys. -/
theorem nodup_keys_foldl_dinsert {α : Type} :
    ∀ (l : List (String × α)) (d : List (String × α)),
      (d.map Prod.fst).Nodup →
      ((l.foldl (fun d t => dinsert t.1 t.2 d) d).map Prod.fst).Nodup := by
  intro l
  induction l with
  | nil => intro d h; simpa using h
  | cons t ts ih =>
      intro d h
      simp only [List.foldl_cons]
      exact ih _ (nodup_keys_dinsert h)

/-- In a key-distinct dictionary, lookup finds each entry. -/
theorem mem_dlookup {α : Type} {k : String} {v : α} :
    ∀ {d : List (String × α)},
      (d.map Prod.fst).Nodup → (k, v) ∈ d → dlookup k d = some v := by
  intro d
  induction d with
  | nil => intro _ h; simp at h
  | cons hd tl ih =>
      intro hnd h
      obtain ⟨k', v'⟩ := hd
      simp only [List.map_cons, List.nodup_cons] at hnd
      rcases List.mem_cons.mp h with h1 | h1
      · obtain ⟨rfl, rfl⟩ := Prod.mk.injEq .. ▸ h1
        · rw [dlookup, if_pos rfl]
      · by_cases hk : k' = k
        · exfalso
          subst hk
          exact hnd.1 (List.mem_map.mpr ⟨(k', v), h1, rfl⟩)
        · rw [dlookup, if_neg hk]
          exact ih hnd.2 h1

/-- One runs-stage assignment preserves `runsEntriesOk`, provided the
assigned task's organization resolves in the workspaces mapping to a
list containing the task's workspace. -/
theorem runsEntriesOk_step (ows : List (String × List Item))
    (d : List (String × List (String × RunsEntry)))
    (t : String × String × String × List Item)
    (hd : runsEntriesOk ows d)
    (ht : ∃ wss, dlookup t.1 ows = some wss ∧
      ∃ ws ∈ wss, ws.name = t.2.1 ∧ ws.id = t.2.2.1) :
    runsEntriesOk ows
      (dinsert t.1 (dinsert t.2.1 ⟨t.2.2.1, t.2.2.2⟩ ((dlookup t.1 d).getD [])) d) := by
  obtain ⟨wss, hlk, ws, hws, hname, hid⟩ := ht
  intro p hp
  rcases mem_dinsert hp with rfl | hp'
  · refine ⟨wss, hlk, ?_⟩
    intro q hq
    rcases mem_dinsert hq with rfl | hq'
    · exact ⟨ws, hws, hname, hid⟩
    · cases hdl : dlookup t.1 d with
      | none => rw [hdl] at hq'; simp at hq'
      | some inner0 =>
          rw [hdl] at hq'
          obtain ⟨wss', hlk', hall⟩ := hd _ (dlookup_mem hdl)
          obtain rfl : wss' = wss := by
            rw [hlk] at hlk'
            exact (Option.some.inj hlk').symm
          exact hall q hq'
  · exact hd p hp'

/-- The runs-stage fold preserves `runsEntriesOk` when every task's
organization and workspace resolve in the workspaces mapping. -/
theorem runsEntriesOk_foldl (ows : List (String × List Item)) :
    ∀ (tasks : List (String × String × String × List Item))
      (d0 : List (String × List (String × RunsEntry))),
      runsEntriesOk ows d0 →
      (∀ t ∈ tasks, ∃ wss, dlookup t.1 ows = some wss ∧
        ∃ ws ∈ wss, ws.name = t.2.1 ∧ ws.id = t.2.2.1) →
      runsEntriesOk ows
        (tasks.foldl (fun d t =>
          dinsert t.1 (dinsert t.2.1 ⟨t.2.2.1, t.2.2.2⟩ ((dlookup t.1 d).getD [])) d) d0) := by
  intro tasks
  induction tasks with
  | nil => intro d0 h0 _; simpa using h0
  | cons t ts ih =>
      intro d0 h0 hts
      simp only [List.foldl_cons]
      exact ih _ (runsEntriesOk_step _ _ _ h0 (hts t (List.mem_cons_self _ _)))
        (fun t' ht' => hts t' (List.mem_cons_of_mem _ ht'))

/-- C8: in every snapshot `get_all_data` produces, every
(organization, workspace-name) key pair of the runs mapping also
appears in the workspaces mapping — the organization is a key there
and its workspace list contains a workspace whose `name` is the
workspace-name key and whose `id` is the stored `workspace_id`. -/
theorem C8_runs_invariant (env : Env) : runsInvariant (get_all_data env).1 := by
  refine runsEntriesOk_foldl _ _ [] (fun p hp => absurd hp (List.not_mem_nil p)) ?_
  intro t ht
  rcases List.mem_flatMap.mp ht with ⟨ow, how, htf⟩
  rcases List.mem_map.mp htf with ⟨ws, hws, rfl⟩
  have hnd : (((env.orgs.map fun org => (org.name, env.workspacesOf org.name)).foldl
      (fun d t => dinsert t.1 t.2 d) []).map Prod.fst).Nodup :=
    nodup_keys_foldl_dinsert _ [] (by simp)
  have hlk := mem_dlookup hnd (show (ow.1, ow.2) ∈ _ from how)
  exact ⟨ow.2, hlk, ws, hws, rfl, rfl⟩

/-- C8 (witness) on a one-organization, one-workspace, one-run
environment, applied to the single entry of the runs mapping. -/
theorem C8_runs_invariant_witness :
    ∃ wss, dlookup "org1" (get_all_data ⟨[⟨"o1", "org1"⟩],
        fun _ => [⟨"w1", "ws1"⟩], fun _ => [⟨"r1", "run1"⟩]⟩).1.workspaces = some wss ∧
      ∀ q ∈ [("ws1", RunsEntry.mk "w1" [⟨"r1", "run1"⟩])],
        ∃ ws ∈ wss, ws.name = q.1 ∧ ws.id = q.2.workspace_id :=
  C8_runs_invariant ⟨[⟨"o1", "org1"⟩], fun _ => [⟨"w1", "ws1"⟩], fun _ => [⟨"r1", "run1"⟩]⟩
    ("org1", [("ws1", RunsEntry.mk "w1" [⟨"r1", "run1"⟩])]) (by decide)

/-! ## Claim about the analyzer (`analyze_data.py`) -/

/-- C9: the analyzer exits with code 1 when the input file is missing
or its contents are not valid JSON, and in either case prints only the
corresponding error message — no report output. -/
theorem C9_analyzer_errors (path : String) (flags : AnalyzerFlags) :
    analyze_main path FileState.missing flags =
      (1, [OutLine.errFileNotFound path]) ∧
    analyze_main path FileState.invalidJson flags =
      (1, [OutLine.errInvalidJson path]) :=
  ⟨rfl, rfl⟩

end TerraformClient
